import Mathlib

/-!
# Verification of the quiz-game-kit session engine

Shallow embedding of the game logic in `quiz-engine.js` (and the extended
engine variant with back/forward review navigation).  JS arrays become
`List`, JS numbers become `Nat` (or `Int` where the source can produce `-1`,
as `Array.prototype.indexOf` does), and `Math.random()` draws are made
explicit: every shuffling operation takes a stream `r : Nat → Nat` of draws,
and iteration `i` of the Fisher-Yates loop uses `r i % (i + 1)` in place of
`Math.floor(Math.random() * (i + 1))`.  Code paths that would throw a
`TypeError` in JS (indexing past the end of an array and then dereferencing
the resulting `undefined`) are modelled by `Option`, with `none` marking the
crash.  DOM writes are omitted, except that the active screen selected by
`showScreen` is kept as an explicit `screen` field, since it is the session
state machine's phase.
-/

namespace QuizGame

/-- The constant `QUESTIONS_PER_GAME = 20`. -/
def QUESTIONS_PER_GAME : Nat := 20

/-- One record of the `questions` array: `{question, options, correct, funFact, wiki}`. -/
structure Question where
  question : String
  options : List String
  correct : Nat
  funFact : String
  wiki : String
deriving Repr, DecidableEq

/-- The per-user progress record `userStats` / the value stored by
`saveUserData`: `{seenQuestions, correctQuestions, totalCorrect, totalAnswered}`. -/
structure UserStats where
  seenQuestions : List Nat
  correctQuestions : List Nat
  totalCorrect : Nat
  totalAnswered : Nat
deriving Repr, DecidableEq

/-- The default record returned by `getUserData` when nothing is stored. -/
def emptyStats : UserStats :=
  { seenQuestions := [], correctQuestions := [], totalCorrect := 0, totalAnswered := 0 }

/-- The `UserProgress` invariant of the spec: `correctQuestions ⊆ seenQuestions`. -/
def statsInv (stats : UserStats) : Prop :=
  ∀ x ∈ stats.correctQuestions, x ∈ stats.seenQuestions

/-- One swap `[array[i], array[j]] = [array[j], array[i]]` of the Fisher-Yates
loop, on a list.  Out-of-range indices leave the list unchanged (the loop
below only ever swaps in range). -/
def listSwap (l : List α) (i j : Nat) : List α :=
  match l[i]?, l[j]? with
  | some x, some y => (l.set i y).set j x
  | _, _ => l

/-- The body of `shuffle`'s `for` loop, counting `i` down to `1`:
`j = Math.floor(Math.random() * (i + 1))` is modelled as `r i % (i + 1)`. -/
def shuffleFrom (r : Nat → Nat) : Nat → List α → List α
  | 0, l => l
  | i + 1, l => shuffleFrom r i (listSwap l (i + 1) (r (i + 1) % (i + 2)))

/-- The source's `function shuffle(array)` — Fisher-Yates, with the random draws passed in
explicitly as the stream `r`. -/
def shuffle (r : Nat → Nat) (l : List α) : List α :=
  shuffleFrom r (l.length - 1) l

/-- The random draws consumed by one call to `selectSessionQuestions`:
one stream per `shuffle` call (three category shuffles and the final one). -/
structure SelRand where
  unseenR : Nat → Nat
  incorrectR : Nat → Nat
  correctR : Nat → Nat
  finalR : Nat → Nat

/-- The category `const unseen = allIndices.filter(i => !seen.has(i));` where
`allIndices = questions.map((_, i) => i)` and `seen = new Set(userStats.seenQuestions)`. -/
def unseenIdx (numQuestions : Nat) (stats : UserStats) : List Nat :=
  (List.range numQuestions).filter (fun i => !(stats.seenQuestions.contains i))

/-- The category `const seenIncorrect = allIndices.filter(i => seen.has(i) && !correct.has(i));` -/
def seenIncorrectIdx (numQuestions : Nat) (stats : UserStats) : List Nat :=
  (List.range numQuestions).filter
    (fun i => stats.seenQuestions.contains i && !(stats.correctQuestions.contains i))

/-- The category `const seenCorrect = allIndices.filter(i => correct.has(i));`
(note: the source tests only `correct.has(i)`, not `seen.has(i)`). -/
def seenCorrectIdx (numQuestions : Nat) (stats : UserStats) : List Nat :=
  (List.range numQuestions).filter (fun i => stats.correctQuestions.contains i)

/-- One of the three `for (const i of ...) { if (selected.length >= QUESTIONS_PER_GAME) break; selected.push(i); }`
loops of `selectSessionQuestions`, appending from `src` onto `acc` up to the cap. -/
def fillTo (acc : List Nat) : List Nat → List Nat
  | [] => acc
  | x :: xs => if QUESTIONS_PER_GAME ≤ acc.length then acc else fillTo (acc ++ [x]) xs

/-- The source's `function selectSessionQuestions()`: categorize all question indices,
shuffle each category, concatenate unseen → seen-incorrect → seen-correct up
to `QUESTIONS_PER_GAME`, then shuffle the selection. -/
def selectSessionQuestions (numQuestions : Nat) (stats : UserStats) (r : SelRand) : List Nat :=
  let selected :=
    fillTo
      (fillTo
        (fillTo [] (shuffle r.unseenR (unseenIdx numQuestions stats)))
        (shuffle r.incorrectR (seenIncorrectIdx numQuestions stats)))
      (shuffle r.correctR (seenCorrectIdx numQuestions stats))
  shuffle r.finalR selected

/-- The screen made active by `showScreen` — the phase of the session state
machine (`loginScreen`, `gameScreen`, `completionScreen`). -/
inductive Screen where
  | login
  | game
  | completion
deriving Repr, DecidableEq

/-- One `answerHistory` entry:
`{questionIndex, selectedIndex, isCorrect, shuffledOptions, correctShuffled}`. -/
structure HistoryEntry where
  questionIndex : Nat
  selectedIndex : Nat
  isCorrect : Bool
  shuffledOptions : List Nat
  correctShuffled : Int
deriving Repr, DecidableEq

/-- The engine's mutable globals. -/
structure GameState where
  screen : Screen
  currentQuestionIndex : Nat
  currentShuffledOptions : List Nat
  currentCorrectShuffled : Int
  sessionScore : Nat
  streak : Nat
  sessionQuestions : List Nat
  sessionAnswered : Nat
  userStats : UserStats
  answerHistory : List HistoryEntry
  viewingIndex : Nat
  browseReturnPosition : Option Nat
deriving Repr, DecidableEq

/-- JS `Array.prototype.indexOf`: the first index holding `x`, or `-1`. -/
def jsIndexOf (l : List Nat) (x : Nat) : Int :=
  if x ∈ l then (l.indexOf x : Int) else -1

/-- JS `arr[i] = x` as used for `answerHistory[viewingIndex] = {...}`:
in every reachable state `i ≤ arr.length` (the history is written densely,
one slot per answered position), so the assignment either overwrites a slot
or appends one. -/
def listAssign (l : List α) (i : Nat) (x : α) : List α :=
  if i < l.length then l.set i x else l ++ [x]

/-- The rounding `Math.round((score / total) * 100)` on naturals: ⌊100·score/total + 1/2⌋.
Every use in the engine has `total = QUESTIONS_PER_GAME = 20`, where
`100·score/20 = 5·score` is an exact integer, so the floating-point
computation and this rational rounding agree. -/
def roundPct (score total : Nat) : Nat :=
  (score * 100 * 2 + total) / (total * 2)

/-- One entry `{min, label}` of the configurable `theme.ranks` table. -/
structure RankEntry where
  min : Nat
  label : String
deriving Repr, DecidableEq

/-- The default `theme.ranks` table (sorted high-to-low by `min`). -/
def defaultRanks : List RankEntry :=
  [ { min := 100, label := "Oracle of Delphi - Perfect Round!" },
    { min := 90, label := "Olympian Champion" },
    { min := 75, label := "Hero of Legend" },
    { min := 60, label := "Worthy Warrior" },
    { min := 40, label := "Eager Student" },
    { min := 0, label := "Humble Mortal" } ]

/-- The rank scan of `showCompletionScreen`:
`let rank = ''; for (const r of theme.ranks) { if (percentage >= r.min) { rank = r.label; break; } }`. -/
def pickRank : List RankEntry → Nat → String
  | [], _ => ""
  | e :: rs, p => if e.min ≤ p then e.label else pickRank rs p

/-- The percentage computed on the completion screen:
`Math.round((sessionScore / QUESTIONS_PER_GAME) * 100)` — the source divides
by the constant, not by `sessionQuestions.length`. -/
def completionPercentage (s : GameState) : Nat :=
  roundPct s.sessionScore QUESTIONS_PER_GAME

/-- The rank label displayed on the completion screen, for a given rank table. -/
def completionRank (ranks : List RankEntry) (s : GameState) : String :=
  pickRank ranks (completionPercentage s)

/-- The source's `function showCompletionScreen()`: switches to the completion screen.
The remainder of the function only renders `completionPercentage`,
`completionRank` and the mastery line. -/
def showCompletionScreen (s : GameState) : GameState :=
  { s with screen := Screen.completion }

/-- The source's `function loadNextQuestion()`.  Here `rq` supplies the draws of this call's
option shuffle.  Returns `none` when the source would throw: it reads
`sessionQuestions[sessionAnswered]` and dereferences
`questions[currentQuestionIndex]` without a bounds check, so past the end of
an undersized session the `undefined` lookup raises a `TypeError`. -/
def loadNextQuestion (bank : List Question) (rq : Nat → Nat) (s : GameState) :
    Option GameState :=
  if QUESTIONS_PER_GAME ≤ s.sessionAnswered then
    some (showCompletionScreen s)
  else
    match s.sessionQuestions[s.sessionAnswered]? with
    | none => none
    | some qi =>
      match bank[qi]? with
      | none => none
      | some q =>
        let opts := shuffle rq [0, 1, 2, 3]
        some { s with
          viewingIndex := s.sessionAnswered,
          currentQuestionIndex := qi,
          currentShuffledOptions := opts,
          currentCorrectShuffled := jsIndexOf opts q.correct }

/-- The source's `function selectAnswer(selectedIndex)` — the state mutation part.  The
trailing DOM work only re-renders the already-loaded question.  Comparison,
score/streak update, most-recent-outcome bookkeeping on `userStats`, history
write, and `sessionAnswered++` follow the source's order. -/
def selectAnswer (selectedIndex : Nat) (s : GameState) : GameState :=
  let isCorrect : Bool := (selectedIndex : Int) == s.currentCorrectShuffled
  let qi := s.currentQuestionIndex
  let stats := s.userStats
  let stats :=
    if isCorrect then
      let stats :=
        if stats.correctQuestions.contains qi then stats
        else { stats with correctQuestions := stats.correctQuestions ++ [qi] }
      { stats with totalCorrect := stats.totalCorrect + 1 }
    else
      { stats with correctQuestions := stats.correctQuestions.erase qi }
  let stats :=
    if stats.seenQuestions.contains qi then stats
    else { stats with seenQuestions := stats.seenQuestions ++ [qi] }
  let stats := { stats with totalAnswered := stats.totalAnswered + 1 }
  let entry : HistoryEntry :=
    { questionIndex := qi, selectedIndex := selectedIndex, isCorrect := isCorrect,
      shuffledOptions := s.currentShuffledOptions,
      correctShuffled := s.currentCorrectShuffled }
  { s with
    sessionScore := if isCorrect then s.sessionScore + 1 else s.sessionScore,
    streak := if isCorrect then s.streak + 1 else 0,
    userStats := stats,
    answerHistory := listAssign s.answerHistory s.viewingIndex entry,
    sessionAnswered := s.sessionAnswered + 1 }

/-- The source's `function nextQuestion()`: clear browse state, then either complete the
session or load the next question. -/
def nextQuestion (bank : List Question) (rq : Nat → Nat) (s : GameState) :
    Option GameState :=
  let s := { s with browseReturnPosition := none }
  if QUESTIONS_PER_GAME ≤ s.sessionAnswered then
    some (showCompletionScreen s)
  else
    loadNextQuestion bank rq s

/-- Whether `showReviewQuestion(pos)` can render without throwing: it
dereferences `answerHistory[pos]` and `questions[entry.questionIndex]`. -/
def showReviewOk (bank : List Question) (s : GameState) (pos : Nat) : Bool :=
  match s.answerHistory[pos]? with
  | none => false
  | some e => (bank[e.questionIndex]?).isSome

/-- The source's `function goBack()`: no-op at position 0; otherwise record the return
position on first use, step back, and replay the stored history entry. -/
def goBack (bank : List Question) (s : GameState) : Option GameState :=
  if s.viewingIndex ≤ 0 then some s
  else
    let s :=
      match s.browseReturnPosition with
      | none => { s with browseReturnPosition := some s.viewingIndex }
      | some _ => s
    let v := s.viewingIndex - 1
    if showReviewOk bank s v then some { s with viewingIndex := v } else none

/-- The source's `function goForward()`: no-op when not browsing; otherwise step toward
`browseReturnPosition`, and on reaching it exit browse mode — reloading the
live question (fresh shuffle) if the return position is at the answering
edge, else replaying the stored entry. -/
def goForward (bank : List Question) (rq : Nat → Nat) (s : GameState) :
    Option GameState :=
  match s.browseReturnPosition with
  | none => some s
  | some ret =>
    let v := s.viewingIndex + 1
    if ret ≤ v then
      let s := { s with browseReturnPosition := none, viewingIndex := ret }
      if s.sessionAnswered ≤ s.viewingIndex then
        loadNextQuestion bank rq s
      else if showReviewOk bank s s.viewingIndex then some s
      else none
    else if showReviewOk bank s v then some { s with viewingIndex := v }
    else none

/-- The session-state reset done by `startGame` / `playAgain` /
`resetProgress` before loading the first question, with `sessionQuestions`
freshly drawn by the selector. -/
def initialSession (stats : UserStats) (numQuestions : Nat) (r : SelRand) : GameState :=
  { screen := Screen.game,
    currentQuestionIndex := 0,
    currentShuffledOptions := [],
    currentCorrectShuffled := 0,
    sessionScore := 0,
    streak := 0,
    sessionQuestions := selectSessionQuestions numQuestions stats r,
    sessionAnswered := 0,
    userStats := stats,
    answerHistory := [],
    viewingIndex := 0,
    browseReturnPosition := none }

/-- The source's `function startGame()` (with a nonempty username), parameterized by the
progress record `getUserData` returned: reset session state, draw the
session's questions, show the game screen and load the first question. -/
def startGame (bank : List Question) (stats : UserStats) (r : SelRand)
    (rq : Nat → Nat) : Option GameState :=
  loadNextQuestion bank rq (initialSession stats bank.length r)

/-- The source's `function playAgain()`: new session for the same user, progress kept. -/
def playAgain (bank : List Question) (r : SelRand) (rq : Nat → Nat)
    (s : GameState) : Option GameState :=
  loadNextQuestion bank rq
    { initialSession s.userStats bank.length r with screen := Screen.game }

/-- The source's `function resetProgress()` with the confirmation accepted: wipe the
progress record, save it, and start a new game. -/
def resetProgress (bank : List Question) (r : SelRand) (rq : Nat → Nat)
    (_s : GameState) : Option GameState :=
  loadNextQuestion bank rq (initialSession emptyStats bank.length r)

/-- A back/forward browsing action, with the draws its possible question
reload would consume. -/
inductive NavOp where
  | back
  | forward (rq : Nat → Nat)

/-- Run a sequence of browsing actions. -/
def navRun (bank : List Question) : List NavOp → GameState → Option GameState
  | [], s => some s
  | NavOp.back :: ops, s => (goBack bank s).bind (navRun bank ops)
  | NavOp.forward rq :: ops, s => (goForward bank rq s).bind (navRun bank ops)

/-- A constant stream of random draws (used to evaluate the engine at
concrete inputs; every draw is `0`). -/
def zeroDraws : Nat → Nat := fun _ => 0

/-- A `SelRand` made of constant-zero draws. -/
def zeroSel : SelRand :=
  { unseenR := zeroDraws, incorrectR := zeroDraws, correctR := zeroDraws, finalR := zeroDraws }

/-- The three-question sample bank shipped with the kit (`questions.js`,
`sample-quiz.db`): three questions whose correct options are 2, 0, 3. -/
def bank3 : List Question :=
  [ { question := "Sample question 1", options := ["A", "B", "C", "D"],
      correct := 2, funFact := "fact 1", wiki := "" },
    { question := "Sample question 2", options := ["A", "B", "C", "D"],
      correct := 0, funFact := "fact 2", wiki := "" },
    { question := "Sample question 3", options := ["A", "B", "C", "D"],
      correct := 3, funFact := "fact 3", wiki := "" } ]

/-- Play the shipped three-question bank to the end: start a session, answer
all three questions (always clicking display option 0), advancing in
between, then advance once more. -/
def bank3Trace : Option GameState :=
  (startGame bank3 emptyStats zeroSel zeroDraws).bind fun s0 =>
    (nextQuestion bank3 zeroDraws (selectAnswer 0 s0)).bind fun s1 =>
      (nextQuestion bank3 zeroDraws (selectAnswer 0 s1)).bind fun s2 =>
        nextQuestion bank3 zeroDraws (selectAnswer 0 s2)

/-- The state of that trace just before the final advance. -/
def bank3BeforeFinal : Option GameState :=
  (startGame bank3 emptyStats zeroSel zeroDraws).bind fun s0 =>
    (nextQuestion bank3 zeroDraws (selectAnswer 0 s0)).bind fun s1 =>
      (nextQuestion bank3 zeroDraws (selectAnswer 0 s1)).map fun s2 =>
        selectAnswer 0 s2

/-- A mid-session state on the sample bank: two questions answered, the
second incorrectly, currently viewing position 1. -/
def wNavStart : GameState :=
  { screen := Screen.game, currentQuestionIndex := 0,
    currentShuffledOptions := [0, 1, 2, 3], currentCorrectShuffled := 2,
    sessionScore := 1, streak := 0, sessionQuestions := [2, 0, 1],
    sessionAnswered := 2,
    userStats := { seenQuestions := [2, 0], correctQuestions := [2],
                   totalCorrect := 1, totalAnswered := 2 },
    answerHistory :=
      [ { questionIndex := 2, selectedIndex := 1, isCorrect := true,
          shuffledOptions := [1, 2, 3, 0], correctShuffled := 1 },
        { questionIndex := 0, selectedIndex := 0, isCorrect := false,
          shuffledOptions := [0, 1, 2, 3], correctShuffled := 2 } ],
    viewingIndex := 1, browseReturnPosition := none }

/-- The state `wNavStart` after one `goBack`: only the viewing position and the
recorded return position differ. -/
def wNavEnd : GameState :=
  { wNavStart with viewingIndex := 0, browseReturnPosition := some 1 }

/-- The state produced by loading the first question of a fresh session on
the sample bank with constant-zero draws: question index 2 is drawn, the
options are displayed in the order `[1, 2, 3, 0]`, and the correct option 3
sits at display position 2. -/
def w10State : GameState :=
  { screen := Screen.game, currentQuestionIndex := 2,
    currentShuffledOptions := [1, 2, 3, 0], currentCorrectShuffled := 2,
    sessionScore := 0, streak := 0, sessionQuestions := [2, 0, 1],
    sessionAnswered := 0, userStats := emptyStats, answerHistory := [],
    viewingIndex := 0, browseReturnPosition := none }

/-! ## Permutation facts about the Fisher-Yates shuffle -/

/-- Writing a stored value back over position `m` and putting the overwritten
value at the front is a permutation. -/
theorem cons_set_perm (xs : List α) (m : Nat) (x y : α) (h : xs[m]? = some y) :
    List.Perm (y :: xs.set m x) (x :: xs) := by
  induction xs generalizing m with
  | nil => simp at h
  | cons b bs ih =>
    cases m with
    | zero =>
      simp at h
      subst h
      simpa using List.Perm.swap x b bs
    | succ k =>
      simp at h
      have hk := ih k h
      have h1 : List.Perm (y :: b :: bs.set k x) (b :: y :: bs.set k x) :=
        List.Perm.swap b y _
      have h2 : List.Perm (b :: y :: bs.set k x) (b :: x :: bs) := hk.cons b
      have h3 : List.Perm (b :: x :: bs) (x :: b :: bs) := List.Perm.swap x b bs
      simpa using (h1.trans h2).trans h3

theorem listSwap_cons_succ (a : α) (as : List α) (k m : Nat) :
    listSwap (a :: as) (k + 1) (m + 1) = a :: listSwap as k m := by
  unfold listSwap
  cases hk : as[k]? <;> cases hm : as[m]? <;> simp [hk, hm]

/-- A single Fisher-Yates swap is a permutation. -/
theorem listSwap_perm (l : List α) (i j : Nat) : List.Perm (listSwap l i j) l := by
  induction l generalizing i j with
  | nil => simp [listSwap]
  | cons a as ih =>
    cases i with
    | zero =>
      cases j with
      | zero => simp [listSwap]
      | succ m =>
        unfold listSwap
        cases hm : as[m]? with
        | none => simp [hm]
        | some y =>
          simpa [hm] using cons_set_perm as m a y hm
    | succ k =>
      cases j with
      | zero =>
        unfold listSwap
        cases hk : as[k]? with
        | none => simp [hk]
        | some x =>
          simpa [hk] using cons_set_perm as k a x hk
      | succ m =>
        rw [listSwap_cons_succ]
        exact (ih k m).cons a

/-- Every partial run of the Fisher-Yates loop is a permutation. -/
theorem shuffleFrom_perm (r : Nat → Nat) (n : Nat) (l : List α) :
    List.Perm (shuffleFrom r n l) l := by
  induction n generalizing l with
  | zero => simp [shuffleFrom]
  | succ i ih =>
    exact (ih _).trans (listSwap_perm l (i + 1) (r (i + 1) % (i + 2)))

/-- Shuffling returns a permutation of the input. -/
theorem shuffle_perm (r : Nat → Nat) (l : List α) : List.Perm (shuffle r l) l :=
  shuffleFrom_perm r (l.length - 1) l

theorem length_shuffle (r : Nat → Nat) (l : List α) : (shuffle r l).length = l.length :=
  (shuffle_perm r l).length_eq

theorem mem_shuffle {r : Nat → Nat} {l : List α} {a : α} :
    a ∈ shuffle r l ↔ a ∈ l :=
  (shuffle_perm r l).mem_iff

theorem nodup_shuffle {r : Nat → Nat} {l : List α} (h : l.Nodup) :
    (shuffle r l).Nodup :=
  ((shuffle_perm r l).nodup_iff).mpr h

/-! ## The selector's fill loops and categories -/

theorem fillTo_eq_append_take (src acc : List Nat) :
    fillTo acc src = acc ++ src.take (QUESTIONS_PER_GAME - acc.length) := by
  induction src generalizing acc with
  | nil => simp [fillTo]
  | cons x xs ih =>
    unfold fillTo
    by_cases h : QUESTIONS_PER_GAME ≤ acc.length
    · have : QUESTIONS_PER_GAME - acc.length = 0 := by omega
      simp [h, this]
    · have hlen : QUESTIONS_PER_GAME - acc.length
          = (QUESTIONS_PER_GAME - (acc.length + 1)) + 1 := by omega
      simp only [h, if_false, ih]
      rw [hlen]
      simp [List.take_succ_cons]

theorem fillTo_take (a b : List Nat) :
    fillTo (a.take QUESTIONS_PER_GAME) b = (a ++ b).take QUESTIONS_PER_GAME := by
  rw [fillTo_eq_append_take, List.take_append_eq_append_take]
  have : QUESTIONS_PER_GAME - (a.take QUESTIONS_PER_GAME).length
       = QUESTIONS_PER_GAME - a.length := by
    simp [List.length_take]
    omega
  rw [this]

/-- The three fill loops build exactly the first `QUESTIONS_PER_GAME` elements
of the concatenation of the three (shuffled) categories. -/
theorem fillTo_three (a b c : List Nat) :
    fillTo (fillTo (fillTo [] a) b) c = ((a ++ b) ++ c).take QUESTIONS_PER_GAME := by
  have h1 : fillTo ([] : List Nat) a = a.take QUESTIONS_PER_GAME := by
    simpa using fillTo_eq_append_take a []
  rw [h1, fillTo_take, fillTo_take]

/-- The selector, rewritten through the fill loops. -/
theorem selectSessionQuestions_eq (n : Nat) (stats : UserStats) (r : SelRand) :
    selectSessionQuestions n stats r
      = shuffle r.finalR
          (((shuffle r.unseenR (unseenIdx n stats)
              ++ shuffle r.incorrectR (seenIncorrectIdx n stats))
            ++ shuffle r.correctR (seenCorrectIdx n stats)).take QUESTIONS_PER_GAME) := by
  unfold selectSessionQuestions
  rw [fillTo_three]

theorem contains_eq_true_iff (l : List Nat) (a : Nat) : l.contains a = true ↔ a ∈ l :=
  List.elem_iff

theorem mem_unseenIdx {n : Nat} {stats : UserStats} {x : Nat} :
    x ∈ unseenIdx n stats ↔ x < n ∧ x ∉ stats.seenQuestions := by
  simp [unseenIdx, List.mem_filter, contains_eq_true_iff]

theorem mem_seenIncorrectIdx {n : Nat} {stats : UserStats} {x : Nat} :
    x ∈ seenIncorrectIdx n stats
      ↔ x < n ∧ x ∈ stats.seenQuestions ∧ x ∉ stats.correctQuestions := by
  simp [seenIncorrectIdx, List.mem_filter, contains_eq_true_iff, and_assoc]

theorem mem_seenCorrectIdx {n : Nat} {stats : UserStats} {x : Nat} :
    x ∈ seenCorrectIdx n stats ↔ x < n ∧ x ∈ stats.correctQuestions := by
  simp [seenCorrectIdx, List.mem_filter, contains_eq_true_iff]

theorem nodup_unseenIdx (n : Nat) (stats : UserStats) : (unseenIdx n stats).Nodup :=
  (List.nodup_range n).filter _

theorem nodup_seenIncorrectIdx (n : Nat) (stats : UserStats) :
    (seenIncorrectIdx n stats).Nodup :=
  (List.nodup_range n).filter _

theorem nodup_seenCorrectIdx (n : Nat) (stats : UserStats) :
    (seenCorrectIdx n stats).Nodup :=
  (List.nodup_range n).filter _

/-- A list splits its length over three mutually exclusive, jointly exhaustive
filters. -/
theorem three_filter_length (u p q : Nat → Bool) : ∀ l : List Nat,
    (∀ x ∈ l,
        (u x = true ∧ p x = false ∧ q x = false)
      ∨ (u x = false ∧ p x = true ∧ q x = false)
      ∨ (u x = false ∧ p x = false ∧ q x = true)) →
    (l.filter u).length + (l.filter p).length + (l.filter q).length = l.length := by
  intro l
  induction l with
  | nil => intro _; simp
  | cons x xs ih =>
    intro h
    have hx := h x (by simp)
    have ih' := ih (fun y hy => h y (by simp [hy]))
    rcases hx with ⟨h1, h2, h3⟩ | ⟨h1, h2, h3⟩ | ⟨h1, h2, h3⟩ <;>
      simp [List.filter_cons, h1, h2, h3] <;> omega

/-- When `correctQuestions ⊆ seenQuestions`, the three selection categories
partition the index range, so their sizes sum to the bank size. -/
theorem category_length_sum (n : Nat) (stats : UserStats)
    (hsub : ∀ x ∈ stats.correctQuestions, x ∈ stats.seenQuestions) :
    (unseenIdx n stats).length + (seenIncorrectIdx n stats).length
      + (seenCorrectIdx n stats).length = n := by
  have h := three_filter_length
      (fun i => !(stats.seenQuestions.contains i))
      (fun i => stats.seenQuestions.contains i && !(stats.correctQuestions.contains i))
      (fun i => stats.correctQuestions.contains i)
      (List.range n) ?_
  · simpa [unseenIdx, seenIncorrectIdx, seenCorrectIdx] using h
  · intro x _
    by_cases hs : x ∈ stats.seenQuestions <;> by_cases hc : x ∈ stats.correctQuestions
    · right; right
      simp [contains_eq_true_iff, hs, hc]
    · right; left
      simp [contains_eq_true_iff, hs, hc]
    · exact absurd (hsub x hc) hs
    · left
      simp [contains_eq_true_iff, hs, hc]

/-! ## C1: selector coverage -/

/-- C1 (counterexample): the claim quantifies over arbitrary sets
`seenQuestions`, `correctQuestions`.  For the progress state with
`seenQuestions = {}` and `correctQuestions = {0}` (violating
`correctQuestions ⊆ seenQuestions`) and a three-question bank, index `0`
falls into both the unseen and the seen-correct category, so the selection
`[2, 0, 0, 1]` has length `4 ≠ min 20 3` and a duplicate: the claim as
stated is false. -/
theorem claim1_counterexample :
    ¬ ((selectSessionQuestions 3
          { seenQuestions := [], correctQuestions := [0],
            totalCorrect := 0, totalAnswered := 0 } zeroSel).length
        = min QUESTIONS_PER_GAME 3
      ∧ (selectSessionQuestions 3
          { seenQuestions := [], correctQuestions := [0],
            totalCorrect := 0, totalAnswered := 0 } zeroSel).Nodup
      ∧ ∀ i ∈ selectSessionQuestions 3
          { seenQuestions := [], correctQuestions := [0],
            totalCorrect := 0, totalAnswered := 0 } zeroSel, i < 3) := by
  decide

/-- C1 (amended): for every progress state satisfying the `UserProgress`
invariant `correctQuestions ⊆ seenQuestions`, and every question bank of
total size `n`, `selectSessionQuestions` returns a list of exactly
`min QUESTIONS_PER_GAME n` indices, with no duplicates, every returned index
a valid index into the bank — for all random draws. -/
theorem selectSessionQuestions_coverage (n : Nat) (stats : UserStats) (r : SelRand)
    (hsub : statsInv stats) :
    (selectSessionQuestions n stats r).length = min QUESTIONS_PER_GAME n
    ∧ (selectSessionQuestions n stats r).Nodup
    ∧ ∀ i ∈ selectSessionQuestions n stats r, i < n := by
  rw [selectSessionQuestions_eq]
  set uS := shuffle r.unseenR (unseenIdx n stats) with huS
  set iS := shuffle r.incorrectR (seenIncorrectIdx n stats) with hiS
  set cS := shuffle r.correctR (seenCorrectIdx n stats) with hcS
  have hmu : ∀ a, a ∈ uS ↔ a ∈ unseenIdx n stats := fun a => mem_shuffle
  have hmi : ∀ a, a ∈ iS ↔ a ∈ seenIncorrectIdx n stats := fun a => mem_shuffle
  have hmc : ∀ a, a ∈ cS ↔ a ∈ seenCorrectIdx n stats := fun a => mem_shuffle
  have hlen : uS.length + iS.length + cS.length = n := by
    rw [huS, hiS, hcS, length_shuffle, length_shuffle, length_shuffle]
    exact category_length_sum n stats hsub
  refine ⟨?_, ?_, ?_⟩
  · rw [length_shuffle, List.length_take]
    simp only [List.length_append]
    omega
  · apply nodup_shuffle
    apply ((List.take_sublist _ _).nodup)
    apply List.Nodup.append
    · apply List.Nodup.append
      · exact nodup_shuffle (nodup_unseenIdx n stats)
      · exact nodup_shuffle (nodup_seenIncorrectIdx n stats)
      · intro a ha hb
        have h1 := (mem_unseenIdx.mp ((hmu a).mp ha)).2
        have h2 := (mem_seenIncorrectIdx.mp ((hmi a).mp hb)).2.1
        exact h1 h2
    · exact nodup_shuffle (nodup_seenCorrectIdx n stats)
    · intro a ha hb
      have hc := (mem_seenCorrectIdx.mp ((hmc a).mp hb)).2
      rcases List.mem_append.mp ha with h | h
      · exact (mem_unseenIdx.mp ((hmu a).mp h)).2 (hsub a hc)
      · exact (mem_seenIncorrectIdx.mp ((hmi a).mp h)).2.2 hc
  · intro i hi
    have h1 : i ∈ ((uS ++ iS) ++ cS).take QUESTIONS_PER_GAME := mem_shuffle.mp hi
    have h2 : i ∈ (uS ++ iS) ++ cS := (List.take_sublist _ _).subset h1
    rcases List.mem_append.mp h2 with h | h
    · rcases List.mem_append.mp h with h | h
      · exact (mem_unseenIdx.mp ((hmu i).mp h)).1
      · exact (mem_seenIncorrectIdx.mp ((hmi i).mp h)).1
    · exact (mem_seenCorrectIdx.mp ((hmc i).mp h)).1

/-- C1 (witness): the amended theorem evaluated for a brand-new user on the
three-question sample bank. -/
theorem selectSessionQuestions_coverage_witness :
    (selectSessionQuestions 3 emptyStats zeroSel).length = min QUESTIONS_PER_GAME 3 :=
  (selectSessionQuestions_coverage 3 emptyStats zeroSel
    (by intro x hx; simp [emptyStats] at hx)).1

/-! ## C2: selection priority -/

/-- C2: `selectSessionQuestions` prioritizes by category (over which indices
are chosen — the returned order is shuffled).  If at least
`QUESTIONS_PER_GAME` indices are unseen, every selected index is unseen; if
fewer, every unseen index is selected, and a seen-correct index is selected
only if every seen-incorrect index is also selected. -/
theorem selectSessionQuestions_priority (n : Nat) (stats : UserStats) (r : SelRand) :
    (QUESTIONS_PER_GAME ≤ (unseenIdx n stats).length →
      ∀ i ∈ selectSessionQuestions n stats r, i ∈ unseenIdx n stats)
    ∧ ((unseenIdx n stats).length < QUESTIONS_PER_GAME →
      (∀ i ∈ unseenIdx n stats, i ∈ selectSessionQuestions n stats r)
      ∧ (∀ i, i ∈ stats.seenQuestions → i ∈ stats.correctQuestions →
          i ∈ selectSessionQuestions n stats r →
          ∀ j ∈ seenIncorrectIdx n stats, j ∈ selectSessionQuestions n stats r)) := by
  rw [selectSessionQuestions_eq]
  set uS := shuffle r.unseenR (unseenIdx n stats) with huS
  set iS := shuffle r.incorrectR (seenIncorrectIdx n stats) with hiS
  set cS := shuffle r.correctR (seenCorrectIdx n stats) with hcS
  have hlu : uS.length = (unseenIdx n stats).length := by rw [huS, length_shuffle]
  constructor
  · intro h20 i hi
    have h1 : i ∈ ((uS ++ iS) ++ cS).take QUESTIONS_PER_GAME := mem_shuffle.mp hi
    rw [List.take_append_of_le_length (by simp [List.length_append]; omega),
        List.take_append_of_le_length (by omega)] at h1
    exact mem_shuffle.mp ((List.take_sublist _ _).subset h1)
  · intro hlt
    have htu : uS.take QUESTIONS_PER_GAME = uS := List.take_of_length_le (by omega)
    constructor
    · intro i hiu
      have hi : i ∈ uS := mem_shuffle.mpr hiu
      apply mem_shuffle.mpr
      rw [List.take_append_eq_append_take, List.take_append_eq_append_take, htu]
      exact List.mem_append_left _ (List.mem_append_left _ hi)
    · intro i hseen hcorr hisel j hj
      have h1 : i ∈ ((uS ++ iS) ++ cS).take QUESTIONS_PER_GAME := mem_shuffle.mp hisel
      rw [List.take_append_eq_append_take] at h1
      rcases List.mem_append.mp h1 with h | h
      · exfalso
        rcases List.mem_append.mp ((List.take_sublist _ _).subset h) with h2 | h2
        · exact (mem_unseenIdx.mp (mem_shuffle.mp h2)).2 hseen
        · exact (mem_seenIncorrectIdx.mp (mem_shuffle.mp h2)).2.2 hcorr
      · have hk : QUESTIONS_PER_GAME - (uS ++ iS).length ≠ 0 := by
          intro h0
          rw [h0] at h
          simp at h
        have hA : (uS ++ iS).take QUESTIONS_PER_GAME = uS ++ iS :=
          List.take_of_length_le (by omega)
        apply mem_shuffle.mpr
        rw [List.take_append_eq_append_take, hA]
        exact List.mem_append_left _ (List.mem_append_right _ (mem_shuffle.mpr hj))

/-- C2 (witness): a two-question bank where question 1 was answered correctly
and question 0 incorrectly: the unseen pool is short, the seen-correct index
1 is drawn, and indeed the seen-incorrect index 0 is drawn as well. -/
theorem selectSessionQuestions_priority_witness :
    0 ∈ selectSessionQuestions 2
        { seenQuestions := [0, 1], correctQuestions := [1],
          totalCorrect := 0, totalAnswered := 0 } zeroSel :=
  ((selectSessionQuestions_priority 2
      { seenQuestions := [0, 1], correctQuestions := [1],
        totalCorrect := 0, totalAnswered := 0 } zeroSel).2
    (by decide)).2 1 (by decide) (by decide) (by decide) 0 (by decide)

/-! ## Frame lemmas for the session runner -/

/-- Loading a question only touches the viewing position, the current-question
registers, and (on completion) the screen. -/
theorem loadNextQuestion_frame {bank : List Question} {rq : Nat → Nat}
    {s s' : GameState} (h : loadNextQuestion bank rq s = some s') :
    s'.sessionScore = s.sessionScore ∧ s'.streak = s.streak
    ∧ s'.sessionAnswered = s.sessionAnswered ∧ s'.answerHistory = s.answerHistory
    ∧ s'.userStats = s.userStats ∧ s'.sessionQuestions = s.sessionQuestions := by
  unfold loadNextQuestion at h
  split at h
  · injection h with h
    subst h
    simp [showCompletionScreen]
  · split at h
    · cases h
    · split at h
      · cases h
      · injection h with h
        subst h
        simp

/-- Going back only touches `viewingIndex` and `browseReturnPosition`. -/
theorem goBack_frame {bank : List Question} {s s' : GameState}
    (h : goBack bank s = some s') :
    s'.sessionScore = s.sessionScore ∧ s'.streak = s.streak
    ∧ s'.sessionAnswered = s.sessionAnswered ∧ s'.answerHistory = s.answerHistory
    ∧ s'.userStats = s.userStats ∧ s'.sessionQuestions = s.sessionQuestions := by
  unfold goBack at h
  split at h
  · injection h with h
    subst h
    simp
  · cases hb : s.browseReturnPosition <;> rw [hb] at h <;> dsimp at h <;> split at h <;>
      first
        | (injection h with h; subst h; simp)
        | cases h

/-- Going forward only touches `viewingIndex`, `browseReturnPosition`, the
current-question registers, and (via a reload at the live edge) the screen. -/
theorem goForward_frame {bank : List Question} {rq : Nat → Nat} {s s' : GameState}
    (h : goForward bank rq s = some s') :
    s'.sessionScore = s.sessionScore ∧ s'.streak = s.streak
    ∧ s'.sessionAnswered = s.sessionAnswered ∧ s'.answerHistory = s.answerHistory
    ∧ s'.userStats = s.userStats ∧ s'.sessionQuestions = s.sessionQuestions := by
  unfold goForward at h
  cases hb : s.browseReturnPosition <;> rw [hb] at h <;> dsimp at h
  · injection h with h
    subst h
    simp
  · split at h
    · split at h
      · simpa using loadNextQuestion_frame h
      · split at h
        · injection h with h
          subst h
          simp
        · cases h
    · split at h
      · injection h with h
        subst h
        simp
      · cases h

/-- Writing the history slot at `i ≤ length` makes it readable. -/
theorem listAssign_get {l : List α} {i : Nat} (x : α) (h : i ≤ l.length) :
    (listAssign l i x)[i]? = some x := by
  unfold listAssign
  by_cases hlt : i < l.length
  · simp [hlt, List.getElem?_set]
  · have : i = l.length := by omega
    subst this
    simp [hlt]

/-- The rank scan returns the label of the first entry whose threshold the
percentage meets, and the empty string when none matches. -/
theorem pickRank_eq_find (t : List RankEntry) (p : Nat) :
    pickRank t p = ((t.find? fun e => decide (e.min ≤ p)).map RankEntry.label).getD "" := by
  induction t with
  | nil => simp [pickRank]
  | cons e rs ih =>
    by_cases h : e.min ≤ p <;> simp [pickRank, h, ih]

/-! ## C3: session termination on an undersized bank -/

/-- C3 (the code evaluated at the failing input): play the shipped
three-question sample bank to the end.  After all three questions are
answered, `sessionAnswered = 3 = len(sessionQuestions)` and the engine is
still on the game screen — per the claim the next advance must reach the
Completed state.  Instead `nextQuestion` compares `sessionAnswered` against
the constant `QUESTIONS_PER_GAME = 20`, calls `loadNextQuestion`, reads
`sessionQuestions[3]` (`undefined`) and throws: the trace ends in `none`, and
no session on this bank ever reaches the completion screen. -/
theorem bank3_completion_bug :
    (bank3BeforeFinal.map fun s =>
        (s.sessionAnswered, s.sessionQuestions.length, s.screen))
      = some (3, 3, Screen.game)
    ∧ bank3Trace = none := by
  constructor
  · rfl
  · rfl

/-! ## C4: completion score and rank -/

/-- C4: on entering the Completed state the session length is necessarily
`QUESTIONS_PER_GAME` (completion requires `sessionAnswered ≥ 20`, and every
answered position was read from `sessionQuestions`, whose length never
exceeds 20 — an undersized session crashes before completing, see C3).
Under that hypothesis the displayed percentage equals
`round(100 · sessionScore / len(sessionQuestions))`, the rank label is the
label of the first table entry whose `min` the percentage meets (empty
string if none), and a 20-question session with score 18 under the table
`[{100,"Perfect"},{90,"Champion"},{0,"Beginner"}]` yields `"Champion"`. -/
theorem completion_score_rank (s : GameState)
    (hlen : s.sessionQuestions.length = QUESTIONS_PER_GAME) :
    completionPercentage s = roundPct s.sessionScore s.sessionQuestions.length
    ∧ (∀ t : List RankEntry,
        completionRank t s
          = ((t.find? fun e => decide (e.min ≤ completionPercentage s)).map
              RankEntry.label).getD "")
    ∧ (s.sessionScore = 18 →
        completionRank
          [{ min := 100, label := "Perfect" }, { min := 90, label := "Champion" },
           { min := 0, label := "Beginner" }] s = "Champion") := by
  refine ⟨?_, ?_, ?_⟩
  · rw [hlen]
    rfl
  · intro t
    exact pickRank_eq_find t (completionPercentage s)
  · intro h18
    simp [completionRank, completionPercentage, roundPct, QUESTIONS_PER_GAME, h18, pickRank]

/-- C4 (witness): a completed 20-question session with score 18. -/
theorem completion_score_rank_witness :
    completionRank
      [{ min := 100, label := "Perfect" }, { min := 90, label := "Champion" },
       { min := 0, label := "Beginner" }]
      { screen := Screen.completion, currentQuestionIndex := 0,
        currentShuffledOptions := [], currentCorrectShuffled := 0,
        sessionScore := 18, streak := 0,
        sessionQuestions := List.range 20, sessionAnswered := 20,
        userStats := emptyStats, answerHistory := [],
        viewingIndex := 19, browseReturnPosition := none } = "Champion" :=
  (completion_score_rank _ (by simp [QUESTIONS_PER_GAME])).2.2 rfl

/-! ## C9: invalid navigation is a no-op -/

/-- C9: `goBack` at position 0 returns the state unchanged, and `goForward`
while not browsing (`browseReturnPosition = null`) returns the state
unchanged; neither signals an error. -/
theorem nav_noop (bank : List Question) (rq : Nat → Nat) (s : GameState) :
    (s.viewingIndex = 0 → goBack bank s = some s)
    ∧ (s.browseReturnPosition = none → goForward bank rq s = some s) := by
  constructor
  · intro h
    simp [goBack, h]
  · intro h
    simp [goForward, h]

/-- C9 (witness): both no-ops evaluated on a freshly started session. -/
theorem nav_noop_witness :
    goBack bank3 (initialSession emptyStats 3 zeroSel)
        = some (initialSession emptyStats 3 zeroSel)
    ∧ goForward bank3 zeroDraws (initialSession emptyStats 3 zeroSel)
        = some (initialSession emptyStats 3 zeroSel) :=
  ⟨(nav_noop bank3 zeroDraws (initialSession emptyStats 3 zeroSel)).1 rfl,
   (nav_noop bank3 zeroDraws (initialSession emptyStats 3 zeroSel)).2 rfl⟩

/-! ## C5: most-recent-outcome bookkeeping -/

/-- Every answer increments the lifetime `totalAnswered` by exactly one. -/
theorem selectAnswer_totalAnswered (d : Nat) (s : GameState) :
    (selectAnswer d s).userStats.totalAnswered = s.userStats.totalAnswered + 1 := by
  by_cases h : ((d : Int) == s.currentCorrectShuffled) = true <;>
    by_cases hcc : s.currentQuestionIndex ∈ s.userStats.correctQuestions <;>
    by_cases hsc : s.currentQuestionIndex ∈ s.userStats.seenQuestions <;>
    simp [selectAnswer, h, hcc, hsc]

/-- The lifetime `totalCorrect` never decreases on an answer. -/
theorem selectAnswer_totalCorrect_mono (d : Nat) (s : GameState) :
    s.userStats.totalCorrect ≤ (selectAnswer d s).userStats.totalCorrect := by
  by_cases h : ((d : Int) == s.currentCorrectShuffled) = true <;>
    by_cases hcc : s.currentQuestionIndex ∈ s.userStats.correctQuestions <;>
    by_cases hsc : s.currentQuestionIndex ∈ s.userStats.seenQuestions <;>
    simp [selectAnswer, h, hcc, hsc]

/-- C5: answering a previously-correct question incorrectly removes it from
`correctQuestions` but keeps it in `seenQuestions`, increments
`totalAnswered` and leaves `totalCorrect` unchanged; and on every answer,
correct or not, `totalAnswered` and `totalCorrect` never decrease. -/
theorem selectAnswer_most_recent (s : GameState) (d : Nat)
    (hwrong : ((d : Int) == s.currentCorrectShuffled) = false)
    (hseen : s.currentQuestionIndex ∈ s.userStats.seenQuestions)
    (_hcorr : s.currentQuestionIndex ∈ s.userStats.correctQuestions)
    (hnd : s.userStats.correctQuestions.Nodup) :
    (s.currentQuestionIndex ∉ (selectAnswer d s).userStats.correctQuestions
      ∧ s.currentQuestionIndex ∈ (selectAnswer d s).userStats.seenQuestions
      ∧ (selectAnswer d s).userStats.totalAnswered = s.userStats.totalAnswered + 1
      ∧ (selectAnswer d s).userStats.totalCorrect = s.userStats.totalCorrect)
    ∧ ∀ (s2 : GameState) (d2 : Nat),
        s2.userStats.totalAnswered ≤ (selectAnswer d2 s2).userStats.totalAnswered
        ∧ s2.userStats.totalCorrect ≤ (selectAnswer d2 s2).userStats.totalCorrect := by
  constructor
  · refine ⟨?_, ?_, ?_, ?_⟩ <;>
      simp [selectAnswer, hwrong, hseen, hnd.not_mem_erase]
  · intro s2 d2
    constructor
    · rw [selectAnswer_totalAnswered]
      exact Nat.le_succ _
    · exact selectAnswer_totalCorrect_mono d2 s2

/-- C5 (witness): question 5, previously seen and correct, answered at
display position 0 while the correct display position is 2. -/
theorem selectAnswer_most_recent_witness :
    5 ∉ (selectAnswer 0
          { screen := Screen.game, currentQuestionIndex := 5,
            currentShuffledOptions := [3, 1, 0, 2], currentCorrectShuffled := 2,
            sessionScore := 3, streak := 2, sessionQuestions := [5, 6, 7],
            sessionAnswered := 0,
            userStats := { seenQuestions := [5, 6], correctQuestions := [5],
                           totalCorrect := 3, totalAnswered := 4 },
            answerHistory := [], viewingIndex := 0,
            browseReturnPosition := none }).userStats.correctQuestions :=
  (selectAnswer_most_recent
    { screen := Screen.game, currentQuestionIndex := 5,
      currentShuffledOptions := [3, 1, 0, 2], currentCorrectShuffled := 2,
      sessionScore := 3, streak := 2, sessionQuestions := [5, 6, 7],
      sessionAnswered := 0,
      userStats := { seenQuestions := [5, 6], correctQuestions := [5],
                     totalCorrect := 3, totalAnswered := 4 },
      answerHistory := [], viewingIndex := 0,
      browseReturnPosition := none }
    0 (by decide) (by decide) (by decide) (by decide)).1.1

/-! ## C6: streak and score -/

/-- C6: a correct answer increments `streak` and `sessionScore` by exactly 1;
an incorrect answer sets `streak` to exactly 0 and leaves `sessionScore`
unchanged. -/
theorem selectAnswer_streak_score (s : GameState) (d : Nat) :
    (((d : Int) == s.currentCorrectShuffled) = true →
      (selectAnswer d s).streak = s.streak + 1
      ∧ (selectAnswer d s).sessionScore = s.sessionScore + 1)
    ∧ (((d : Int) == s.currentCorrectShuffled) = false →
      (selectAnswer d s).streak = 0
      ∧ (selectAnswer d s).sessionScore = s.sessionScore) := by
  constructor <;> intro h <;> simp [selectAnswer, h]

/-- C6 (witness): a correct then an incorrect answer evaluated concretely. -/
theorem selectAnswer_streak_score_witness :
    (selectAnswer 2
      { screen := Screen.game, currentQuestionIndex := 1,
        currentShuffledOptions := [3, 1, 0, 2], currentCorrectShuffled := 2,
        sessionScore := 1, streak := 1, sessionQuestions := [1, 2],
        sessionAnswered := 1, userStats := emptyStats, answerHistory := [],
        viewingIndex := 1, browseReturnPosition := none }).streak = 2
    ∧ (selectAnswer 0
      { screen := Screen.game, currentQuestionIndex := 1,
        currentShuffledOptions := [3, 1, 0, 2], currentCorrectShuffled := 2,
        sessionScore := 1, streak := 1, sessionQuestions := [1, 2],
        sessionAnswered := 1, userStats := emptyStats, answerHistory := [],
        viewingIndex := 1, browseReturnPosition := none }).streak = 0 :=
  ⟨((selectAnswer_streak_score
      { screen := Screen.game, currentQuestionIndex := 1,
        currentShuffledOptions := [3, 1, 0, 2], currentCorrectShuffled := 2,
        sessionScore := 1, streak := 1, sessionQuestions := [1, 2],
        sessionAnswered := 1, userStats := emptyStats, answerHistory := [],
        viewingIndex := 1, browseReturnPosition := none } 2).1 (by decide)).1,
   ((selectAnswer_streak_score
      { screen := Screen.game, currentQuestionIndex := 1,
        currentShuffledOptions := [3, 1, 0, 2], currentCorrectShuffled := 2,
        sessionScore := 1, streak := 1, sessionQuestions := [1, 2],
        sessionAnswered := 1, userStats := emptyStats, answerHistory := [],
        viewingIndex := 1, browseReturnPosition := none } 0).2 (by decide)).1⟩

/-! ## C8: the progress invariant -/

/-- C8: `correctQuestions ⊆ seenQuestions` holds for the freshly created
empty progress record, is preserved by submitting any answer, and holds
after a progress reset. -/
theorem progress_subset_invariant :
    statsInv emptyStats
    ∧ (∀ (s : GameState) (d : Nat), statsInv s.userStats →
        statsInv (selectAnswer d s).userStats)
    ∧ (∀ (bank : List Question) (r : SelRand) (rq : Nat → Nat) (s s' : GameState),
        resetProgress bank r rq s = some s' → statsInv s'.userStats) := by
  refine ⟨?_, ?_, ?_⟩
  · intro x hx
    simp [emptyStats] at hx
  · intro s d hinv x hx
    by_cases hic : ((d : Int) == s.currentCorrectShuffled) = true
    · by_cases hcc : s.currentQuestionIndex ∈ s.userStats.correctQuestions
      · by_cases hsc : s.currentQuestionIndex ∈ s.userStats.seenQuestions
        · simp [selectAnswer, hic, hcc, hsc] at hx ⊢
          exact hinv x hx
        · simp [selectAnswer, hic, hcc, hsc] at hx ⊢
          exact Or.inl (hinv x hx)
      · by_cases hsc : s.currentQuestionIndex ∈ s.userStats.seenQuestions
        · simp [selectAnswer, hic, hcc, hsc] at hx ⊢
          rcases hx with hx | hx
          · exact hinv x hx
          · rw [hx]
            exact hsc
        · simp [selectAnswer, hic, hcc, hsc] at hx ⊢
          rcases hx with hx | hx
          · exact Or.inl (hinv x hx)
          · exact Or.inr hx
    · by_cases hsc : s.currentQuestionIndex ∈ s.userStats.seenQuestions
      · simp [selectAnswer, hic, hsc] at hx ⊢
        exact hinv x (List.mem_of_mem_erase hx)
      · simp [selectAnswer, hic, hsc] at hx ⊢
        exact Or.inl (hinv x (List.mem_of_mem_erase hx))
  · intro bank r rq s s' h
    unfold resetProgress at h
    have hs := (loadNextQuestion_frame h).2.2.2.2.1
    rw [hs]
    intro x hx
    simp [initialSession, emptyStats] at hx

/-- C8 (witness): the invariant propagated through a concrete correct
answer. -/
theorem progress_subset_invariant_witness :
    5 ∈ (selectAnswer 2
          { screen := Screen.game, currentQuestionIndex := 5,
            currentShuffledOptions := [3, 1, 0, 2], currentCorrectShuffled := 2,
            sessionScore := 0, streak := 0, sessionQuestions := [5],
            sessionAnswered := 0,
            userStats := { seenQuestions := [5], correctQuestions := [5],
                           totalCorrect := 1, totalAnswered := 1 },
            answerHistory := [], viewingIndex := 0,
            browseReturnPosition := none }).userStats.seenQuestions :=
  progress_subset_invariant.2.1
    { screen := Screen.game, currentQuestionIndex := 5,
      currentShuffledOptions := [3, 1, 0, 2], currentCorrectShuffled := 2,
      sessionScore := 0, streak := 0, sessionQuestions := [5],
      sessionAnswered := 0,
      userStats := { seenQuestions := [5], correctQuestions := [5],
                     totalCorrect := 1, totalAnswered := 1 },
      answerHistory := [], viewingIndex := 0,
      browseReturnPosition := none }
    2 (by intro x hx; simpa using hx) 5 (by decide)

/-! ## C7: browsing preserves score, streak and progress -/

/-- C7: any sequence of `goBack` / `goForward` operations (that does not
crash) leaves `sessionScore`, `streak`, `sessionAnswered`, `answerHistory`,
the `UserProgress` record and `sessionQuestions` unchanged: of the session
state of the spec's data model, only `viewingIndex` and
`browseReturnPosition` change.  (A reload triggered by returning to the live
question regenerates the presentation-only option-shuffle registers.) -/
theorem navRun_frame (bank : List Question) (ops : List NavOp) (s s' : GameState)
    (h : navRun bank ops s = some s') :
    s'.sessionScore = s.sessionScore ∧ s'.streak = s.streak
    ∧ s'.sessionAnswered = s.sessionAnswered ∧ s'.answerHistory = s.answerHistory
    ∧ s'.userStats = s.userStats ∧ s'.sessionQuestions = s.sessionQuestions := by
  induction ops generalizing s with
  | nil =>
    unfold navRun at h
    injection h with h
    subst h
    exact ⟨rfl, rfl, rfl, rfl, rfl, rfl⟩
  | cons op ops ih =>
    cases op with
    | back =>
      unfold navRun at h
      rcases Option.bind_eq_some.mp h with ⟨t, h1, h2⟩
      obtain ⟨a1, a2, a3, a4, a5, a6⟩ := goBack_frame h1
      obtain ⟨b1, b2, b3, b4, b5, b6⟩ := ih t h2
      exact ⟨b1.trans a1, b2.trans a2, b3.trans a3, b4.trans a4, b5.trans a5, b6.trans a6⟩
    | forward rq =>
      unfold navRun at h
      rcases Option.bind_eq_some.mp h with ⟨t, h1, h2⟩
      obtain ⟨a1, a2, a3, a4, a5, a6⟩ := goForward_frame h1
      obtain ⟨b1, b2, b3, b4, b5, b6⟩ := ih t h2
      exact ⟨b1.trans a1, b2.trans a2, b3.trans a3, b4.trans a4, b5.trans a5, b6.trans a6⟩

/-- C7 (witness): one `goBack` from `wNavStart` moves only the viewing
position and the recorded return position; all protected fields coincide. -/
theorem navRun_frame_witness :
    wNavEnd.sessionScore = wNavStart.sessionScore
    ∧ wNavEnd.streak = wNavStart.streak
    ∧ wNavEnd.sessionAnswered = wNavStart.sessionAnswered
    ∧ wNavEnd.answerHistory = wNavStart.answerHistory
    ∧ wNavEnd.userStats = wNavStart.userStats
    ∧ wNavEnd.sessionQuestions = wNavStart.sessionQuestions :=
  navRun_frame bank3 [NavOp.back] wNavStart wNavEnd (by decide)

/-! ## C10: the display shuffle tracks the correct option -/

/-- Characterization of a successful question load below the completion
threshold: the loaded index comes from `sessionQuestions`, the question from
the bank, and the state is updated with a fresh option shuffle and the
remapped correct position. -/
theorem loadNextQuestion_spec {bank : List Question} {rq : Nat → Nat}
    {s s' : GameState} (h : loadNextQuestion bank rq s = some s')
    (hlive : s.sessionAnswered < QUESTIONS_PER_GAME) :
    ∃ qi q, s.sessionQuestions[s.sessionAnswered]? = some qi
      ∧ bank[qi]? = some q
      ∧ s' = { s with
          viewingIndex := s.sessionAnswered,
          currentQuestionIndex := qi,
          currentShuffledOptions := shuffle rq [0, 1, 2, 3],
          currentCorrectShuffled := jsIndexOf (shuffle rq [0, 1, 2, 3]) q.correct } := by
  unfold loadNextQuestion at h
  rw [if_neg (by omega)] at h
  split at h
  · cases h
  · rename_i qi hqi
    split at h
    · cases h
    · rename_i q hq2
      injection h with h
      exact ⟨qi, q, hqi, hq2, h.symm⟩

/-- C10: after a successful question load whose question has
`correct ∈ [0,3]`, the shuffled option list maps the remapped correct
position back to the original correct option; an answer at display index
`d < 4` is judged correct exactly when the option rendered at `d` is the
question's original correct option; and the history entry written by
`selectAnswer` stores this same permutation and remapped index (and that
same judgment). -/
theorem option_shuffle_tracking (bank : List Question) (rq : Nat → Nat)
    (s s' : GameState) (q : Question)
    (hload : loadNextQuestion bank rq s = some s')
    (hlive : s.sessionAnswered < QUESTIONS_PER_GAME)
    (hq : bank[s'.currentQuestionIndex]? = some q)
    (hc : q.correct < 4)
    (hhist : s.sessionAnswered ≤ s.answerHistory.length) :
    s'.currentShuffledOptions[s'.currentCorrectShuffled.toNat]? = some q.correct
    ∧ (∀ d : Nat, d < 4 →
        (((d : Int) == s'.currentCorrectShuffled) = true
          ↔ s'.currentShuffledOptions[d]? = some q.correct))
    ∧ ∀ d : Nat,
        (selectAnswer d s').answerHistory[s'.viewingIndex]? = some
          { questionIndex := s'.currentQuestionIndex, selectedIndex := d,
            isCorrect := ((d : Int) == s'.currentCorrectShuffled),
            shuffledOptions := s'.currentShuffledOptions,
            correctShuffled := s'.currentCorrectShuffled } := by
  obtain ⟨qi, q', hqi, hbank, hs'⟩ := loadNextQuestion_spec hload hlive
  subst hs'
  dsimp at hq ⊢
  rw [hbank] at hq
  injection hq with hq
  subst hq
  have hperm := shuffle_perm rq [0, 1, 2, 3]
  have hmem : q'.correct ∈ shuffle rq [0, 1, 2, 3] := by
    apply hperm.mem_iff.mpr
    have : q'.correct = 0 ∨ q'.correct = 1 ∨ q'.correct = 2 ∨ q'.correct = 3 := by omega
    rcases this with h | h | h | h <;> simp [h]
  have hlt : (shuffle rq [0, 1, 2, 3]).indexOf q'.correct
      < (shuffle rq [0, 1, 2, 3]).length :=
    List.indexOf_lt_length.mpr hmem
  have hjs : jsIndexOf (shuffle rq [0, 1, 2, 3]) q'.correct
      = ((shuffle rq [0, 1, 2, 3]).indexOf q'.correct : Int) := by
    simp [jsIndexOf, hmem]
  have hat : (shuffle rq [0, 1, 2, 3])[(shuffle rq [0, 1, 2, 3]).indexOf q'.correct]?
      = some q'.correct := by
    rw [List.getElem?_eq_getElem hlt]
    simp [List.indexOf_get hlt]
  have hnd : (shuffle rq [0, 1, 2, 3]).Nodup := nodup_shuffle (by decide)
  refine ⟨?_, ?_, ?_⟩
  · rw [hjs]
    simpa using hat
  · intro d hd4
    rw [hjs]
    constructor
    · intro hbeq
      have : (d : Int) = ((shuffle rq [0, 1, 2, 3]).indexOf q'.correct : Int) :=
        beq_iff_eq.mp hbeq
      have hde : d = (shuffle rq [0, 1, 2, 3]).indexOf q'.correct := by
        exact_mod_cast this
      rw [hde]
      exact hat
    · intro hget
      have hdlt : d < (shuffle rq [0, 1, 2, 3]).length := by
        rw [length_shuffle]
        simpa using hd4
      have hgd : (shuffle rq [0, 1, 2, 3]).get ⟨d, hdlt⟩ = q'.correct := by
        rw [List.getElem?_eq_getElem hdlt] at hget
        injection hget
      have hgi : (shuffle rq [0, 1, 2, 3]).get
          ⟨(shuffle rq [0, 1, 2, 3]).indexOf q'.correct, hlt⟩ = q'.correct :=
        List.indexOf_get hlt
      have := List.nodup_iff_injective_get.mp hnd (hgd.trans hgi.symm)
      apply beq_iff_eq.mpr
      exact_mod_cast congrArg Fin.val this
  · intro d
    have : s.sessionAnswered ≤ s.answerHistory.length := hhist
    exact listAssign_get _ this

/-- C10 (witness): the first load of a fresh session on the sample bank —
the remapped correct position 2 points back at the original correct
option 3 of question index 2. -/
theorem option_shuffle_tracking_witness :
    w10State.currentShuffledOptions[w10State.currentCorrectShuffled.toNat]?
      = some 3 :=
  (option_shuffle_tracking bank3 zeroDraws (initialSession emptyStats 3 zeroSel)
    w10State
    { question := "Sample question 3", options := ["A", "B", "C", "D"],
      correct := 3, funFact := "fact 3", wiki := "" }
    (by decide) (by decide) (by decide) (by decide) (by decide)).1

end QuizGame
